import Mathlib

/-!
Shallow embedding of the image-processing application in src/labProject.py
(class ImageProcessingApp).  Images are treated as opaque values: every
operation of the application either copies them, compares them, or hands
them to an external vision-library primitive, so an image is modelled as an
abstract value of type Int.  The external cv2 primitives are modelled as
fallible collaborators (Except String Image), matching how the source wraps
each call in try/except.  GUI-only effects (repainting, styling) carry no
state and are omitted; user-visible message boxes are modelled explicitly
as a list of emitted messages.
-/

namespace ImageApp

/-- An image buffer, opaque to the controller: the application only copies,
stores and compares whole images, so the pixel grid is abstracted to a
single value. -/
abbrev Image := Int

/-- Python list slicing l[:k]: for k >= 0 it keeps the first k elements,
for k < 0 it keeps the first (length + k) elements (clamped at 0). -/
def pySlice (l : List Image) (k : Int) : List Image :=
  if 0 ≤ k then l.take k.toNat else l.take (k + l.length).toNat

/-- Python list indexing l[i] with negative-index wraparound; out-of-range
accesses (which raise IndexError in Python) return a default value here.
Every use in the application is in range for reachable states, as the
history-index invariant below shows. -/
def listGetI (l : List Image) (i : Int) : Image :=
  if 0 ≤ i then l.getD i.toNat 0 else l.getD (i + l.length).toNat 0

/-- The mutable state of ImageProcessingApp that the history, filter,
reset and drawing operations touch: original_image, processed_image,
image_history and current_history_index (initialised in __init__,
lines 18-21 of src/labProject.py). -/
structure AppState where
  original_image : Option Image
  processed_image : Option Image
  image_history : List Image
  current_history_index : Int
  deriving DecidableEq, Repr

/-- The state set up by __init__: no images, empty history, index -1. -/
def initState : AppState :=
  { original_image := none
    processed_image := none
    image_history := []
    current_history_index := -1 }

/-- User-visible message boxes shown by the application. -/
inductive Msg where
  /-- QMessageBox.warning "Please open an image first!" (apply_filter). -/
  | warnOpenFirst : Msg
  /-- QMessageBox.critical "Failed to apply filter: ..." (apply_filter). -/
  | filterError (e : String) : Msg
  /-- QMessageBox.warning "No image to reset!" (reset_image). -/
  | warnNoReset : Msg
  deriving DecidableEq, Repr

/-- add_to_history (lines 328-332): when a processed image exists, truncate
the history to the entries up to the current index (Python slice
[:index+1]), append a copy of the processed image, and point the index at
the new last entry. -/
def add_to_history (s : AppState) : AppState :=
  match s.processed_image with
  | none => s
  | some img =>
    let hist := pySlice s.image_history (s.current_history_index + 1) ++ [img]
    { s with image_history := hist
             current_history_index := (hist.length : Int) - 1 }

/-- undo (lines 334-338): when the index is positive, step it back one and
load a copy of that snapshot into the processed image; otherwise no-op. -/
def undo (s : AppState) : AppState :=
  if 0 < s.current_history_index then
    { s with current_history_index := s.current_history_index - 1
             processed_image :=
               some (listGetI s.image_history (s.current_history_index - 1)) }
  else s

/-- redo (lines 340-344): when the index is before the last entry, step it
forward one and load a copy of that snapshot into the processed image;
otherwise no-op. -/
def redo (s : AppState) : AppState :=
  if s.current_history_index < (s.image_history.length : Int) - 1 then
    { s with current_history_index := s.current_history_index + 1
             processed_image :=
               some (listGetI s.image_history (s.current_history_index + 1)) }
  else s

/-- The colour-space codes the application passes to cv2.cvtColor. -/
inductive ColorCode where
  | BGR2GRAY : ColorCode
  | GRAY2BGR : ColorCode
  | BGR2HSV : ColorCode
  | HSV2BGR : ColorCode
  deriving DecidableEq, Repr

/-- The external cv2 primitives used by apply_filter, modelled as fallible
collaborators: each call either returns a new image or raises (maps to
Except.error), which the source catches in the try/except of apply_filter.
The in-place numpy hue arithmetic (line 298) cannot raise and is pure. -/
structure CvOps where
  cvtColor : ColorCode → Image → Except String Image
  gaussianBlur : Int → Image → Except String Image
  canny : Int → Int → Image → Except String Image
  filter2D : Image → Except String Image
  convertScaleAbs : Int → Int → Image → Except String Image
  hueShiftHSV : Image → Image

/-- The kernel-size clamp of the Gaussian Blur branch (lines 279-284):
take the slider value, raise it to 1 if below 1, and increment even values
to the next odd number. -/
def blurKernel (v : Int) : Int :=
  let k := if v < 1 then 1 else v
  if k % 2 == 0 then k + 1 else k

/-- The per-pixel hue update of the Hue Adjustment branch (line 298):
hsv[:,:,0] = (hsv[:,:,0] + 30) % 180 on a uint8 channel, so the addition
first wraps modulo 256 (no wrap actually occurs for hue values, which cv2
keeps below 180). -/
def hueShift (h : Nat) : Nat := ((h + 30) % 256) % 180

/-- apply_filter (lines 269-304): warn and return when no image is loaded;
otherwise run the named branch inside try/except.  Each assignment to
self.processed_image is modelled as a state update; when a primitive
raises, the remaining statements are skipped, the error is reported, and
the state keeps the assignments already made (the Grayscale branch assigns
twice, so a failure of its second conversion leaves the intermediate).
On success the display is refreshed (no model state) and add_to_history
runs.  A name matching no branch still falls through to add_to_history,
exactly as the if/elif chain with no else does. -/
def apply_filter (ops : CvOps) (blurVal brightVal : Int) (name : String)
    (s : AppState) : AppState × List Msg :=
  match s.processed_image with
  | none => (s, [Msg.warnOpenFirst])
  | some p =>
    if name = "Grayscale" then
      match ops.cvtColor ColorCode.BGR2GRAY p with
      | Except.error e => (s, [Msg.filterError e])
      | Except.ok g =>
        match ops.cvtColor ColorCode.GRAY2BGR g with
        | Except.error e => ({ s with processed_image := some g }, [Msg.filterError e])
        | Except.ok b => (add_to_history { s with processed_image := some b }, [])
    else if name = "Gaussian Blur" then
      match ops.gaussianBlur (blurKernel blurVal) p with
      | Except.error e => (s, [Msg.filterError e])
      | Except.ok b => (add_to_history { s with processed_image := some b }, [])
    else if name = "Edge Detection" then
      match ops.cvtColor ColorCode.BGR2GRAY p with
      | Except.error e => (s, [Msg.filterError e])
      | Except.ok g =>
        match ops.canny 100 200 g with
        | Except.error e => (s, [Msg.filterError e])
        | Except.ok ed =>
          match ops.cvtColor ColorCode.GRAY2BGR ed with
          | Except.error e => (s, [Msg.filterError e])
          | Except.ok b => (add_to_history { s with processed_image := some b }, [])
    else if name = "Sharpen" then
      match ops.filter2D p with
      | Except.error e => (s, [Msg.filterError e])
      | Except.ok b => (add_to_history { s with processed_image := some b }, [])
    else if name = "Brightness/Contrast" then
      match ops.convertScaleAbs 1 brightVal p with
      | Except.error e => (s, [Msg.filterError e])
      | Except.ok b => (add_to_history { s with processed_image := some b }, [])
    else if name = "Hue Adjustment" then
      match ops.cvtColor ColorCode.BGR2HSV p with
      | Except.error e => (s, [Msg.filterError e])
      | Except.ok hsv =>
        match ops.cvtColor ColorCode.HSV2BGR (ops.hueShiftHSV hsv) with
        | Except.error e => (s, [Msg.filterError e])
        | Except.ok b => (add_to_history { s with processed_image := some b }, [])
    else
      (add_to_history s, [])

/-- reset_image (lines 306-312): with an original image, replace the
processed image by a copy of it and record a history entry; otherwise warn. -/
def reset_image (s : AppState) : AppState × List Msg :=
  match s.original_image with
  | some img => (add_to_history { s with processed_image := some img }, [])
  | none => (s, [Msg.warnNoReset])

/-- clear_drawing (lines 409-413): with an original image, replace the
processed image by a copy of it and record a history entry; otherwise
silently do nothing. -/
def clear_drawing (s : AppState) : AppState × List Msg :=
  match s.original_image with
  | some img => (add_to_history { s with processed_image := some img }, [])
  | none => (s, [])

/-- The history-index invariant: the index is -1 exactly while the history
is empty, and points inside [0, length-1] once it is non-empty. -/
def HistInv (s : AppState) : Prop :=
  (s.image_history = [] → s.current_history_index = -1) ∧
  (s.image_history ≠ [] →
    0 ≤ s.current_history_index ∧
      s.current_history_index ≤ (s.image_history.length : Int) - 1)

instance (s : AppState) : Decidable (HistInv s) := by
  unfold HistInv; infer_instance

/-- One record step of the spec contract: the triggering operation stores
its result into processed_image and then calls add_to_history, as open /
apply_filter / reset do. -/
def record (img : Image) (s : AppState) : AppState :=
  add_to_history { s with processed_image := some img }

/-- N sequential record calls, first list element recorded first. -/
def records : List Image → AppState → AppState
  | [], s => s
  | img :: rest, s => records rest (record img s)

/-- The processed image after a run of records: the last recorded image,
or the starting value when nothing was recorded. -/
def lastProcessed (p : Option Image) : List Image → Option Image
  | [] => p
  | img :: rest => lastProcessed (some img) rest

/-- An axis-aligned rectangle with integer origin and extent, as QRect. -/
structure Rect where
  x : Int
  y : Int
  w : Int
  h : Int
  deriving DecidableEq, Repr

/-- get_image_rect (lines 401-407): with an image and a pixmap present it
returns self.image_label.rect(), the FULL label rectangle at origin (0,0);
the fetched pixmap is never consulted. -/
def get_image_rect (labelW labelH : Int) : Rect :=
  { x := 0, y := 0, w := labelW, h := labelH }

/-- The viewport-to-image mapping of mouse_move_event (lines 385-388):
int((px - rect.x) * imageWidth / rect.w) for x and the analogue for y.
Python int() on the float quotient truncates toward zero; the operands in
every use are small integers, exactly representable, so truncating integer
division (Int.tdiv) is the exact semantics. -/
def mapToImage (r : Rect) (imgW imgH : Int) (p : Int × Int) : Int × Int :=
  (Int.tdiv ((p.1 - r.x) * imgW) r.w, Int.tdiv ((p.2 - r.y) * imgH) r.h)

/-- The image-space segment that mouse_move_event rasterizes for one move
from lastP to curP (line 390): both endpoints mapped through
get_image_rect, which is the full label rectangle. -/
def mouseSegment (labelW labelH imgW imgH : Int) (lastP curP : Int × Int) :
    (Int × Int) × (Int × Int) :=
  (mapToImage (get_image_rect labelW labelH) imgW imgH lastP,
   mapToImage (get_image_rect labelW labelH) imgW imgH curP)

/-- Modelled from the spec: the displayed pixmap size when an imgW x imgH
image is scaled to fit a labelW x labelH viewport preserving aspect ratio
(Qt KeepAspectRatio), the largest size fitting the viewport with the image
aspect. -/
def fittedSize (imgW imgH labelW labelH : Int) : Int × Int :=
  if imgH * labelW ≤ imgW * labelH then
    (labelW, Int.tdiv (imgH * labelW) imgW)
  else
    (Int.tdiv (imgW * labelH) imgH, labelH)

/-- Modelled from the spec: the viewport-to-image mapping that accounts for
the aspect-ratio-preserving scale AND the centering offset of the displayed
pixmap inside the viewport (the label centers its pixmap), which the spec
requires of the pointer-move handler. -/
def specMapToImage (labelW labelH imgW imgH : Int) (p : Int × Int) : Int × Int :=
  let fit := fittedSize imgW imgH labelW labelH
  let ox := Int.tdiv (labelW - fit.1) 2
  let oy := Int.tdiv (labelH - fit.2) 2
  (Int.tdiv ((p.1 - ox) * imgW) fit.1, Int.tdiv ((p.2 - oy) * imgH) fit.2)

/-- A CvOps instance whose first Grayscale conversion succeeds (tagging the
image) and whose second conversion raises: a concrete run of the external
collaborators that exercises the failure path of the Grayscale branch. -/
def failOps : CvOps where
  cvtColor := fun c img =>
    match c with
    | ColorCode.BGR2GRAY => Except.ok (img + 1000)
    | ColorCode.GRAY2BGR => Except.error "cvt"
    | _ => Except.ok img
  gaussianBlur := fun _ img => Except.ok img
  canny := fun _ _ img => Except.ok img
  filter2D := fun img => Except.ok img
  convertScaleAbs := fun _ _ img => Except.ok img
  hueShiftHSV := fun img => img

/-- A CvOps instance whose Gaussian-blur primitive returns the kernel size
it was handed, so that the kernel the dispatcher actually executes with is
observable in the resulting state. -/
def probeOps : CvOps where
  cvtColor := fun _ img => Except.ok img
  gaussianBlur := fun k _ => Except.ok k
  canny := fun _ _ img => Except.ok img
  filter2D := fun img => Except.ok img
  convertScaleAbs := fun _ _ img => Except.ok img
  hueShiftHSV := fun img => img

/-- A concrete state with an image loaded and a mid-history index, used to
instantiate the theorems below on closed inputs. -/
def histDemo : AppState :=
  { original_image := some 1
    processed_image := some 5
    image_history := [7, 8, 9]
    current_history_index := 1 }

/-- A concrete state for exercising the Grayscale failure path. -/
def failDemo : AppState :=
  { original_image := some 1
    processed_image := some 1
    image_history := [1]
    current_history_index := 0 }

theorem add_to_history_processed (s : AppState) :
    (add_to_history s).processed_image = s.processed_image := by
  cases hp : s.processed_image <;> simp [add_to_history, hp]

theorem add_to_history_original (s : AppState) :
    (add_to_history s).original_image = s.original_image := by
  cases hp : s.processed_image <;> simp [add_to_history, hp]

theorem apply_filter_original_eq (ops : CvOps) (v b : Int) (name : String)
    (s : AppState) :
    (apply_filter ops v b name s).1.original_image = s.original_image := by
  unfold apply_filter
  repeat' split
  all_goals simp [add_to_history_original]

theorem getD_append_singleton (l : List Image) (a : Image) :
    (l ++ [a]).getD l.length 0 = a := by
  induction l with
  | nil => rfl
  | cons x xs ih => simp [ih]

/-- C6: for every blur-slider value V in the slider range [1, 15], the
Gaussian Blur branch runs with kernel size V when V is odd and V+1 when V
is even, always odd; the last conjunct observes through a probing
gaussian-blur primitive that apply_filter really hands that kernel size to
the primitive. -/
theorem gaussian_blur_kernel_odd (v : Int) (h1 : 1 ≤ v) (h2 : v ≤ 15) :
    (v % 2 = 1 → blurKernel v = v) ∧
    (v % 2 = 0 → blurKernel v = v + 1) ∧
    blurKernel v % 2 = 1 ∧
    (apply_filter probeOps v 0 "Gaussian Blur"
        { original_image := none, processed_image := some 0,
          image_history := [], current_history_index := -1 }).1.processed_image
      = some (blurKernel v) := by
  have hlt : ¬ v < 1 := by omega
  have hb : blurKernel v = if v % 2 = 0 then v + 1 else v := by
    simp [blurKernel, hlt]
  refine ⟨?_, ?_, ?_, ?_⟩
  · intro hv; rw [hb, if_neg (by omega)]
  · intro hv; rw [hb, if_pos hv]
  · rw [hb]; split_ifs with h <;> omega
  · simp [apply_filter, probeOps, add_to_history_processed]

theorem gaussian_blur_kernel_odd_witness :
    blurKernel 4 = 4 + 1 ∧ blurKernel 5 = 5 :=
  ⟨(gaussian_blur_kernel_odd 4 (by decide) (by decide)).2.1 (by decide),
   (gaussian_blur_kernel_odd 5 (by decide) (by decide)).1 (by decide)⟩

set_option maxRecDepth 4000 in
/-- C7: the hue update of the Hue Adjustment branch adds 30 modulo 180 (on
a uint8 channel, hence the inner wrap at 256, which never fires for hue
values below 180); six applications return every hue value below 180 to
itself, since 6 times 30 is 180, congruent to 0 mod 180. -/
theorem hue_shift_six_identity : ∀ h : Nat, h < 180 → hueShift^[6] h = h := by
  decide

theorem hue_shift_six_identity_witness : hueShift^[6] 77 = 77 :=
  hue_shift_six_identity 77 (by decide)

/-- C9: with no processed image loaded, apply_filter warns and returns the
state unchanged, whatever the filter name and the primitive behaviour. -/
theorem apply_filter_no_image (ops : CvOps) (v b : Int) (name : String)
    (s : AppState) (h : s.processed_image = none) :
    apply_filter ops v b name s = (s, [Msg.warnOpenFirst]) := by
  simp [apply_filter, h]

theorem apply_filter_no_image_witness :
    apply_filter probeOps 5 0 "Grayscale" initState
      = (initState, [Msg.warnOpenFirst]) :=
  apply_filter_no_image probeOps 5 0 "Grayscale" initState rfl

/-- C8: filters never touch the original image, and from any state holding
an original image, reset_image makes the processed image equal to it. -/
theorem reset_restores_original (ops : CvOps) (v b : Int) (name : String)
    (s : AppState) (img : Image) :
    (apply_filter ops v b name s).1.original_image = s.original_image ∧
    (s.original_image = some img →
      (reset_image s).1.processed_image = some img) := by
  refine ⟨apply_filter_original_eq ops v b name s, fun h => ?_⟩
  simp [reset_image, h, add_to_history_processed]

theorem reset_restores_original_witness :
    (apply_filter probeOps 5 0 "Sharpen" histDemo).1.original_image
        = histDemo.original_image ∧
    (histDemo.original_image = some 1 →
      (reset_image histDemo).1.processed_image = some 1) :=
  reset_restores_original probeOps 5 0 "Sharpen" histDemo 1

/-- C10: with an original image loaded, reset_image and clear_drawing
perform the same transition (copy the original into the processed image
and record one history entry); without one, reset_image warns and
clear_drawing silently does nothing, both leaving the state unchanged. -/
theorem reset_clear_equiv (s : AppState) :
    (∀ img : Image, s.original_image = some img →
        reset_image s = (add_to_history { s with processed_image := some img }, []) ∧
        clear_drawing s = reset_image s) ∧
    (s.original_image = none →
        reset_image s = (s, [Msg.warnNoReset]) ∧ clear_drawing s = (s, [])) := by
  constructor
  · intro img h
    simp [reset_image, clear_drawing, h]
  · intro h
    simp [reset_image, clear_drawing, h]

theorem reset_clear_equiv_witness :
    clear_drawing histDemo = reset_image histDemo :=
  ((reset_clear_equiv histDemo).1 1 rfl).2

/-- C5: the pointer-move mapping at a concrete geometry.  A 100 x 100
image shown in a 1200 x 900 label is displayed as a 900 x 900 pixmap
centered with a 150-pixel horizontal offset; the viewport point (150, 0)
is the top-left corner of the displayed image, so the mapping the spec
requires yields image point (0, 0), but mouse_move_event, using the full
label rectangle from get_image_rect, yields (12, 0). -/
theorem mouse_map_ignores_centering :
    mouseSegment 1200 900 100 100 (150, 0) (150, 0) = ((12, 0), (12, 0)) ∧
    specMapToImage 1200 900 100 100 (150, 0) = (0, 0) ∧
    mapToImage (get_image_rect 1200 900) 100 100 (150, 0)
      ≠ specMapToImage 1200 900 100 100 (150, 0) := by
  decide

/-- C1: recording via add_to_history keeps exactly the entries up to the
current index (discarding everything strictly after it), appends the
processed image, and leaves the index on the new last entry, which holds
the recorded image; redo is then a no-op. -/
theorem add_to_history_records (s : AppState) (img : Image)
    (hp : s.processed_image = some img) (hi : -1 ≤ s.current_history_index) :
    (add_to_history s).image_history
        = s.image_history.take (s.current_history_index + 1).toNat ++ [img] ∧
    (add_to_history s).current_history_index
        = ((add_to_history s).image_history.length : Int) - 1 ∧
    listGetI (add_to_history s).image_history
        (add_to_history s).current_history_index = img ∧
    redo (add_to_history s) = add_to_history s := by
  have hslice : pySlice s.image_history (s.current_history_index + 1)
      = s.image_history.take (s.current_history_index + 1).toNat := by
    simp [pySlice, show (0:Int) ≤ s.current_history_index + 1 by omega]
  have h1 : (add_to_history s).image_history
      = s.image_history.take (s.current_history_index + 1).toNat ++ [img] := by
    simp [add_to_history, hp, hslice]
  have h2 : (add_to_history s).current_history_index
      = ((add_to_history s).image_history.length : Int) - 1 := by
    simp [add_to_history, hp]
  have hlen : 1 ≤ (add_to_history s).image_history.length := by
    rw [h1]; simp
  refine ⟨h1, h2, ?_, ?_⟩
  · rw [h1, h2, h1]
    have hnn : (0:Int) ≤
        ((s.image_history.take (s.current_history_index + 1).toNat ++ [img]).length : Int) - 1 := by
      simp
    rw [listGetI, if_pos hnn]
    have htn : (((s.image_history.take (s.current_history_index + 1).toNat ++ [img]).length : Int) - 1).toNat
        = (s.image_history.take (s.current_history_index + 1).toNat).length := by
      rw [List.length_append, List.length_singleton]
      omega
    rw [htn, getD_append_singleton]
  · have : ¬ ((add_to_history s).current_history_index
        < ((add_to_history s).image_history.length : Int) - 1) := by
      omega
    simp [redo, this]

theorem add_to_history_records_witness :
    (add_to_history histDemo).image_history
        = histDemo.image_history.take (histDemo.current_history_index + 1).toNat ++ [5] ∧
    (add_to_history histDemo).current_history_index
        = ((add_to_history histDemo).image_history.length : Int) - 1 ∧
    listGetI (add_to_history histDemo).image_history
        (add_to_history histDemo).current_history_index = 5 ∧
    redo (add_to_history histDemo) = add_to_history histDemo :=
  add_to_history_records histDemo 5 rfl (by decide)

/-- C3: the history-index invariant (index -1 on an empty history, inside
[0, length-1] on a non-empty one) holds in the initial state and is
preserved by add_to_history, undo and redo, so it holds in every state
reachable through the operations that touch the history. -/
theorem history_index_invariant :
    HistInv initState ∧
    ∀ s : AppState, HistInv s →
      HistInv (add_to_history s) ∧ HistInv (undo s) ∧ HistInv (redo s) := by
  constructor
  · decide
  · intro s hs
    obtain ⟨hemp, hne⟩ := hs
    refine ⟨?_, ?_, ?_⟩
    · cases hp : s.processed_image with
      | none =>
        have h : add_to_history s = s := by simp [add_to_history, hp]
        rw [h]; exact ⟨hemp, hne⟩
      | some img =>
        have h : (add_to_history s).image_history
            = pySlice s.image_history (s.current_history_index + 1) ++ [img] := by
          simp [add_to_history, hp]
        have h2 : (add_to_history s).current_history_index
            = ((add_to_history s).image_history.length : Int) - 1 := by
          simp [add_to_history, hp]
        have hlen : 1 ≤ (add_to_history s).image_history.length := by
          rw [h]; simp
        constructor
        · intro hnil
          rw [hnil] at hlen
          simp at hlen
        · intro _
          omega
    · unfold undo
      split_ifs with hpos
      · have hnil : s.image_history ≠ [] := by
          intro h0
          have := hemp h0
          omega
        obtain ⟨hl, hr⟩ := hne hnil
        refine ⟨fun h0 => absurd h0 (by simpa using hnil), fun _ => ?_⟩
        simp only [List.length_cons]
        constructor <;> [skip; skip] <;> simp <;> omega
      · exact ⟨hemp, hne⟩
    · unfold redo
      split_ifs with hlt
      · by_cases hnil : s.image_history = []
        · exfalso
          have h0 := hemp hnil
          rw [hnil] at hlt
          simp at hlt
          omega
        · obtain ⟨hl, hr⟩ := hne hnil
          refine ⟨fun h0 => absurd h0 (by simpa using hnil), fun _ => ?_⟩
          simp
          omega
      · exact ⟨hemp, hne⟩

theorem history_index_invariant_witness :
    HistInv (add_to_history histDemo) ∧ HistInv (undo histDemo) ∧
      HistInv (redo histDemo) :=
  history_index_invariant.2 histDemo (by decide)

/-- C4 counterexample: with collaborators whose first Grayscale conversion
succeeds and whose second raises, apply_filter reports the error but
leaves the processed image holding the single-channel intermediate (1001)
instead of its prior value (1): the claim that a transform failure leaves
the Processed Image unchanged is false on the code. -/
theorem apply_filter_failure_changes_processed :
    (apply_filter failOps 5 0 "Grayscale" failDemo).2
        = [Msg.filterError "cvt"] ∧
    (apply_filter failOps 5 0 "Grayscale" failDemo).1.processed_image
        = some 1001 ∧
    failDemo.processed_image = some 1 ∧
    (some 1001 : Option Image) ≠ some 1 := by
  decide

/-- C4 (amended): a filter run either succeeds silently or reports exactly
one user-visible error; on error the history sequence, the current index
and the original image are unchanged, and the processed image is unchanged
as well, except that a Grayscale run whose first conversion succeeded and
whose second raised leaves the processed image holding the intermediate
single-channel result. -/
theorem apply_filter_error_behavior (ops : CvOps) (v b : Int) (name : String)
    (s : AppState) (p : Image) (hp : s.processed_image = some p) :
    (apply_filter ops v b name s).2 = [] ∨
    ∃ e : String,
      (apply_filter ops v b name s).2 = [Msg.filterError e] ∧
      (apply_filter ops v b name s).1.image_history = s.image_history ∧
      (apply_filter ops v b name s).1.current_history_index
          = s.current_history_index ∧
      (apply_filter ops v b name s).1.original_image = s.original_image ∧
      ((apply_filter ops v b name s).1.processed_image = some p ∨
        (name = "Grayscale" ∧
          ∃ g : Image,
            ops.cvtColor ColorCode.BGR2GRAY p = Except.ok g ∧
            ops.cvtColor ColorCode.GRAY2BGR g = Except.error e ∧
            (apply_filter ops v b name s).1.processed_image = some g)) := by
  simp only [apply_filter, hp]
  split_ifs with hgray hblur hedge hsharp hbright hhue
  · cases h1 : ops.cvtColor ColorCode.BGR2GRAY p with
    | error e => exact Or.inr ⟨e, rfl, rfl, rfl, rfl, Or.inl hp⟩
    | ok g =>
      dsimp only
      cases h2 : ops.cvtColor ColorCode.GRAY2BGR g with
      | error e =>
        exact Or.inr ⟨e, rfl, rfl, rfl, rfl, Or.inr ⟨hgray, g, rfl, h2, rfl⟩⟩
      | ok b2 => exact Or.inl rfl
  · cases h1 : ops.gaussianBlur (blurKernel v) p with
    | error e => exact Or.inr ⟨e, rfl, rfl, rfl, rfl, Or.inl hp⟩
    | ok b2 => exact Or.inl rfl
  · cases h1 : ops.cvtColor ColorCode.BGR2GRAY p with
    | error e => exact Or.inr ⟨e, rfl, rfl, rfl, rfl, Or.inl hp⟩
    | ok g =>
      dsimp only
      cases h2 : ops.canny 100 200 g with
      | error e => exact Or.inr ⟨e, rfl, rfl, rfl, rfl, Or.inl hp⟩
      | ok ed =>
        dsimp only
        cases h3 : ops.cvtColor ColorCode.GRAY2BGR ed with
        | error e => exact Or.inr ⟨e, rfl, rfl, rfl, rfl, Or.inl hp⟩
        | ok b2 => exact Or.inl rfl
  · cases h1 : ops.filter2D p with
    | error e => exact Or.inr ⟨e, rfl, rfl, rfl, rfl, Or.inl hp⟩
    | ok b2 => exact Or.inl rfl
  · cases h1 : ops.convertScaleAbs 1 b p with
    | error e => exact Or.inr ⟨e, rfl, rfl, rfl, rfl, Or.inl hp⟩
    | ok b2 => exact Or.inl rfl
  · cases h1 : ops.cvtColor ColorCode.BGR2HSV p with
    | error e => exact Or.inr ⟨e, rfl, rfl, rfl, rfl, Or.inl hp⟩
    | ok hsv =>
      dsimp only
      cases h2 : ops.cvtColor ColorCode.HSV2BGR (ops.hueShiftHSV hsv) with
      | error e => exact Or.inr ⟨e, rfl, rfl, rfl, rfl, Or.inl hp⟩
      | ok b2 => exact Or.inl rfl
  · exact Or.inl rfl

theorem apply_filter_error_behavior_witness :
    (apply_filter failOps 5 0 "Grayscale" failDemo).2 = [] ∨
    ∃ e : String,
      (apply_filter failOps 5 0 "Grayscale" failDemo).2 = [Msg.filterError e] ∧
      (apply_filter failOps 5 0 "Grayscale" failDemo).1.image_history
          = failDemo.image_history ∧
      (apply_filter failOps 5 0 "Grayscale" failDemo).1.current_history_index
          = failDemo.current_history_index ∧
      (apply_filter failOps 5 0 "Grayscale" failDemo).1.original_image
          = failDemo.original_image ∧
      ((apply_filter failOps 5 0 "Grayscale" failDemo).1.processed_image
          = some 1 ∨
        ("Grayscale" = "Grayscale" ∧
          ∃ g : Image,
            failOps.cvtColor ColorCode.BGR2GRAY 1 = Except.ok g ∧
            failOps.cvtColor ColorCode.GRAY2BGR g = Except.error e ∧
            (apply_filter failOps 5 0 "Grayscale" failDemo).1.processed_image
                = some g)) :=
  apply_filter_error_behavior failOps 5 0 "Grayscale" failDemo 1 rfl

theorem record_step (o p : Option Image) (l : List Image) (img : Image) :
    record img { original_image := o, processed_image := p, image_history := l,
                 current_history_index := (l.length : Int) - 1 }
      = { original_image := o, processed_image := some img,
          image_history := l ++ [img],
          current_history_index := (l.length : Int) } := by
  simp [record, add_to_history, pySlice]

theorem records_spec (imgs : List Image) (o : Option Image) :
    ∀ (p : Option Image) (l : List Image),
      records imgs { original_image := o, processed_image := p,
                     image_history := l,
                     current_history_index := (l.length : Int) - 1 }
        = { original_image := o, processed_image := lastProcessed p imgs,
            image_history := l ++ imgs,
            current_history_index := ((l ++ imgs).length : Int) - 1 } := by
  induction imgs with
  | nil => intro p l; simp [records, lastProcessed]
  | cons img rest ih =>
    intro p l
    rw [records, record_step,
      show ((l.length : Int)) = (((l ++ [img]).length : Int) - 1) by simp,
      ih (some img) (l ++ [img])]
    simp [lastProcessed]

theorem records_init (imgs : List Image) :
    records imgs initState
      = { original_image := none, processed_image := lastProcessed none imgs,
          image_history := imgs,
          current_history_index := (imgs.length : Int) - 1 } := by
  have h := records_spec imgs none none []
  simpa [initState] using h

theorem lastProcessed_getD (imgs : List Image) (p : Option Image)
    (h : imgs ≠ []) :
    lastProcessed p imgs = some (imgs.getD (imgs.length - 1) 0) := by
  induction imgs generalizing p with
  | nil => exact absurd rfl h
  | cons img rest ih =>
    cases rest with
    | nil => rfl
    | cons y ys =>
      have hne : (y :: ys) ≠ ([] : List Image) := by simp
      calc lastProcessed p (img :: y :: ys)
          = lastProcessed (some img) (y :: ys) := rfl
        _ = some ((y :: ys).getD ((y :: ys).length - 1) 0) := ih (some img) hne
        _ = some ((img :: y :: ys).getD ((img :: y :: ys).length - 1) 0) := by
            simp [List.getD_cons_succ]

theorem undo_iter_spec (l : List Image) (o : Option Image) :
    ∀ (k : Nat), 1 ≤ k → ∀ (p : Option Image) (j : Int), (k : Int) ≤ j →
      j ≤ (l.length : Int) - 1 →
      undo^[k] { original_image := o, processed_image := p,
                 image_history := l, current_history_index := j }
        = { original_image := o,
            processed_image := some (listGetI l (j - k)),
            image_history := l, current_history_index := j - k } := by
  intro k hk1
  induction k, hk1 using Nat.le_induction with
  | base =>
    intro p j hk hj
    have hpos : 0 < j := by omega
    rw [Function.iterate_one]
    simp [undo, hpos]
  | succ k hk ih =>
    intro p j hkj hj
    have hpos : 0 < j := by omega
    rw [Function.iterate_succ_apply]
    have hu : undo { original_image := o, processed_image := p,
                     image_history := l, current_history_index := j }
        = { original_image := o,
            processed_image := some (listGetI l (j - 1)),
            image_history := l, current_history_index := j - 1 } := by
      simp [undo, hpos]
    rw [hu, ih (some (listGetI l (j - 1))) (j - 1) (by omega) (by omega)]
    have he : j - 1 - (k : Int) = j - ((k + 1 : Nat) : Int) := by
      push_cast; ring
    rw [he]

theorem redo_iter_spec (l : List Image) (o : Option Image) :
    ∀ (k : Nat), 1 ≤ k → ∀ (p : Option Image) (j : Int), 0 ≤ j →
      j + k ≤ (l.length : Int) - 1 →
      redo^[k] { original_image := o, processed_image := p,
                 image_history := l, current_history_index := j }
        = { original_image := o,
            processed_image := some (listGetI l (j + k)),
            image_history := l, current_history_index := j + k } := by
  intro k hk1
  induction k, hk1 using Nat.le_induction with
  | base =>
    intro p j hj0 hj
    have hlt : j < (l.length : Int) - 1 := by omega
    rw [Function.iterate_one]
    simp [redo, hlt]
  | succ k hk ih =>
    intro p j hj0 hj
    have hlt : j < (l.length : Int) - 1 := by omega
    rw [Function.iterate_succ_apply]
    have hr : redo { original_image := o, processed_image := p,
                     image_history := l, current_history_index := j }
        = { original_image := o,
            processed_image := some (listGetI l (j + 1)),
            image_history := l, current_history_index := j + 1 } := by
      simp [redo, hlt]
    rw [hr, ih (some (listGetI l (j + 1))) (j + 1) (by omega) (by omega)]
    have he : j + 1 + (k : Int) = j + ((k + 1 : Nat) : Int) := by
      push_cast; ring
    rw [he]

/-- C2: starting from the empty-history initial state, after recording the
images of imgs in order, the k-th undo shows snapshot length-1-k (reverse
order), the k-th redo after undoing everything shows snapshot k (forward
order), and undoing N-1 times then redoing N-1 times restores the exact
post-record state: same history sequence, same current index, same
processed image. -/
theorem history_undo_redo_roundtrip (imgs : List Image)
    (h : 1 ≤ imgs.length) :
    (∀ k : Nat, 1 ≤ k → k ≤ imgs.length - 1 →
      (undo^[k] (records imgs initState)).processed_image
        = some (listGetI imgs ((imgs.length : Int) - 1 - k))) ∧
    (∀ k : Nat, 1 ≤ k → k ≤ imgs.length - 1 →
      (redo^[k] (undo^[imgs.length - 1] (records imgs initState))).processed_image
        = some (listGetI imgs (k : Int))) ∧
    redo^[imgs.length - 1] (undo^[imgs.length - 1] (records imgs initState))
      = records imgs initState := by
  have hrec := records_init imgs
  have hne : imgs ≠ [] := by
    intro h0
    rw [h0] at h
    simp at h
  have hlast : lastProcessed none imgs
      = some (imgs.getD (imgs.length - 1) 0) := lastProcessed_getD imgs none hne
  have hundo : 2 ≤ imgs.length →
      undo^[imgs.length - 1] (records imgs initState)
        = { original_image := none,
            processed_image := some (listGetI imgs 0),
            image_history := imgs, current_history_index := 0 } := by
    intro hN2
    rw [hrec, undo_iter_spec imgs none (imgs.length - 1) (by omega)
      (lastProcessed none imgs) ((imgs.length : Int) - 1) (by omega) (by omega)]
    have hz : (imgs.length : Int) - 1 - ((imgs.length - 1 : Nat) : Int) = 0 := by
      omega
    rw [hz]
  refine ⟨?_, ?_, ?_⟩
  · intro k hk1 hk2
    rw [hrec, undo_iter_spec imgs none k hk1
      (lastProcessed none imgs) ((imgs.length : Int) - 1) (by omega) (by omega)]
  · intro k hk1 hk2
    have hN2 : 2 ≤ imgs.length := by omega
    rw [hundo hN2, redo_iter_spec imgs none k hk1
      (some (listGetI imgs 0)) 0 (le_refl 0) (by omega)]
    rw [zero_add]
  · rcases Nat.lt_or_ge imgs.length 2 with h1 | h1
    · have h0 : imgs.length - 1 = 0 := by omega
      rw [h0]
      simp
    · rw [hundo h1, redo_iter_spec imgs none (imgs.length - 1) (by omega)
        (some (listGetI imgs 0)) 0 (le_refl 0) (by omega), hrec]
      have h0 : (0 : Int) + ((imgs.length - 1 : Nat) : Int)
          = (imgs.length : Int) - 1 := by omega
      rw [h0, hlast]
      have hg : listGetI imgs ((imgs.length : Int) - 1)
          = imgs.getD (imgs.length - 1) 0 := by
        rw [listGetI, if_pos (by omega)]
        congr 1
        omega
      rw [hg]

theorem history_undo_redo_roundtrip_witness :
    (undo^[1] (records [10, 20, 30] initState)).processed_image = some 20 ∧
    redo^[2] (undo^[2] (records [10, 20, 30] initState))
      = records [10, 20, 30] initState := by
  constructor
  · rw [(history_undo_redo_roundtrip [10, 20, 30] (by decide)).1 1
      (by decide) (by decide)]
    decide
  · exact (history_undo_redo_roundtrip [10, 20, 30] (by decide)).2.2

end ImageApp
